import Mathlib

/-!
# Verification of the `x_tracker` repository's incremental-polling core

Shallow embedding of the two reference implementations:

* `src/x_web_tracker/tracker.py` — single-account, page-scraping variant
  (namespace `XWeb`): client-side scan-until-match diff, silent first-run
  seeding, watermark stored in `last_id.txt`.
* `src/src/x_tracker/tracker.py` — multi-account, API variant (namespace
  `XT`): server-side `since_id` filtering, first-run notifies the whole
  fetched page, JSON state file keyed by account handle.

External I/O adapters (HTTP, Playwright, Telegram transport) appear only
through their observable results: a fetch oracle returning either an error
or a newest-first page, and a send oracle returning either an error or
success (for `XT`, whose notifier raises on failure) or a plain outcome
(for `XWeb`, whose `send_to_telegram` swallows failures).
-/

/-- One fetched post. Mirrors the tweet dicts of both variants: an `id`
string and a display body; the permalink is derived from the id. -/
structure Tweet where
  id : String
  text : String
deriving DecidableEq, Repr

namespace XWeb

/-- The `for tweet in tweets: if tweet["id"] == last_seen_id: break;
new_tweets.append(tweet)` loop of `main` (src/x_web_tracker/tracker.py,
lines 156-160): collect newest-first fetched tweets until one whose id
equals the stored watermark, excluding that boundary tweet. -/
def new_tweets_scan (last_seen_id : String) : List Tweet → List Tweet
  | [] => []
  | t :: ts =>
    if t.id = last_seen_id then []
    else t :: new_tweets_scan last_seen_id ts

/-- Observable result of one Telegram delivery attempt, as seen by
`send_to_telegram` (src/x_web_tracker/tracker.py, lines 64-81): the POST
either succeeds with HTTP 200, returns a non-200 status, or raises a
`requests.RequestException`. -/
inductive SendOutcome where
  | success
  | httpError (status : Nat) (body : String)
  | requestException (msg : String)
deriving DecidableEq, Repr

/-- `send_to_telegram`: errors are logged to the console but never raised
(the `try`/`except requests.RequestException` plus the status check that
only prints). The returned list is the console output; there is no error
channel, mirroring that the function always returns normally. -/
def send_to_telegram (outcome : SendOutcome) : List String :=
  match outcome with
  | .success => []
  | .httpError status body =>
    ["Failed to send Telegram message (status " ++ toString status ++ "): " ++ body]
  | .requestException msg =>
    ["Error sending Telegram message: " ++ msg]

/-- One run of `main` (src/x_web_tracker/tracker.py, lines 139-177) after
the fetch, parameterised by the delivery outcome of each tweet.
Returns (tweets notified in send order, console log lines, content of
`last_id.txt` after the run).

* empty page: print and return, watermark file untouched;
* absent watermark: first run, write the newest id, notify nothing;
* present watermark: scan until match, reverse to oldest-first, send each
  through `send_to_telegram` (which never raises), then write the newest
  fetched id unconditionally. -/
def main_run (last_seen_id : Option String) (tweets : List Tweet)
    (outcome : Tweet → SendOutcome) :
    List Tweet × List String × Option String :=
  match tweets with
  | [] => ([], ["No tweets found or page failed to load."], last_seen_id)
  | t :: ts =>
    match last_seen_id with
    | none =>
      ([], ["First run detected. Saved the latest tweet ID and will notify on the next run."],
        some t.id)
    | some w =>
      let nw := (new_tweets_scan w (t :: ts)).reverse
      let logs :=
        if nw = [] then ["No new tweets since last check."]
        else nw.flatMap (fun x => send_to_telegram (outcome x)) ++
          ["Sent " ++ toString nw.length ++ " new tweet(s) to Telegram."]
      (nw, logs, some t.id)

/-- The Diff Engine view of `main_run`: new items (oldest-first) and the
updated watermark, delivery outcomes irrelevant. -/
def diff (last_seen_id : Option String) (tweets : List Tweet) :
    List Tweet × Option String :=
  let r := main_run last_seen_id tweets (fun _ => SendOutcome.success)
  (r.1, r.2.2)

/-- Watermark after one cycle of `main` on a fetched page. -/
def step_watermark (last_seen_id : Option String) (tweets : List Tweet) :
    Option String :=
  (diff last_seen_id tweets).2

/-- Watermarks after each cycle of a sequence of runs, each run fetching
the corresponding page. -/
def run_trace (last_seen_id : Option String) : List (List Tweet) → List (Option String)
  | [] => []
  | p :: ps =>
    let w := step_watermark last_seen_id p
    w :: run_trace w ps

end XWeb

namespace XT

/-- In-memory state of `ActivityTracker`: Python's insertion-ordered
`Dict[str, Optional[str]]` as an association list from account handle to
optional last-seen tweet id. -/
def AState := List (String × Option String)
deriving DecidableEq, Repr

/-- `self._state.get(username)` / `stored.get(account)`: a missing key and
a stored `null` both come back as `None`. -/
def state_get (st : AState) (account : String) : Option String :=
  (List.lookup account st).join

/-- Python dict assignment `self._state[username] = value`: replace the
value of an existing key in place (keeping insertion order), append the
key otherwise. -/
def state_set : AState → String → Option String → AState
  | [], account, v => [(account, v)]
  | (k, v') :: rest, account, v =>
    if k = account then (account, v) :: rest
    else (k, v') :: state_set rest account v

/-- `ActivityTracker._load_state` (src/src/x_tracker/tracker.py, lines
132-137): if the state file exists, parse it and rebuild the mapping as
`the stored value of account, for account in config.accounts` (missing
entries default to `None`, entries for unconfigured accounts are dropped);
otherwise every configured account maps to `None`. `file` is the parsed
JSON object, `none` when the file does not exist. -/
def load_state (file : Option AState) (accounts : List String) : AState :=
  match file with
  | some stored => accounts.map (fun a => (a, state_get stored a))
  | none => accounts.map (fun a => (a, none))

/-- JSON rendering of one stored watermark: a string or `null`. Account
handles and tweet ids contain no characters needing escapes. -/
def json_value : Option String → String
  | none => "null"
  | some s => "\"" ++ s ++ "\""

/-- The comma-separated entry lines produced by `json.dump(..., indent=2)`
for a non-empty dict. -/
def json_entries : AState → String
  | [] => ""
  | [(k, v)] => "  \"" ++ k ++ "\": " ++ json_value v
  | (k, v) :: e :: rest =>
    "  \"" ++ k ++ "\": " ++ json_value v ++ ",\n" ++ json_entries (e :: rest)

/-- `json.dump(self._state, handle, indent=2)`: the serialized text of a
state snapshot. -/
def json_of_state : AState → String
  | [] => "\x7b\x7d"
  | e :: rest => "\x7b\n" ++ json_entries (e :: rest) ++ "\n\x7d"

/-- Directory set after `self.config.state_file.parent.mkdir(parents=True,
exist_ok=True)`: the parent directory is created if missing. -/
def persist_dirs_after (dirs : List String) (parent : String) : List String :=
  if parent ∈ dirs then dirs else parent :: dirs

/-- The file contents visible to a concurrent reader over the course of
`ActivityTracker._persist_state` (src/src/x_tracker/tracker.py, lines
139-142): the old content before the call; the empty file the moment
`open(..., "w")` truncates it in place; the full serialized snapshot once
`json.dump` has finished. (`json.dump` streams further partial states
between the last two; the truncated state alone already witnesses
non-atomicity.) `none` means the file does not exist. -/
def persist_trace_contents (old : Option String) (st : AState) :
    List (Option String) :=
  [old, some "", some (json_of_state st)]

/-- `ActivityTracker._format_message`: the Telegram text for one tweet,
containing the body and the derived permalink. (The localized header line
of the source is abbreviated to `New activity`; no claim depends on its
exact wording.) -/
def format_message (username : String) (tweet : Tweet) : String :=
  "New activity @" ++ username ++ "\n" ++ tweet.text ++ "\n\n" ++
    "https://twitter.com/" ++ username ++ "/status/" ++ tweet.id

/-- `ActivityTracker._notify` (src/src/x_tracker/tracker.py, lines
152-156): send oldest first (`for tweet in reversed(tweets)`), each
through `TelegramNotifier.send_message`, which raises `RuntimeError` on a
non-200 response. `send` is the delivery oracle; the result is the list of
messages actually handed to the transport, in order, together with the
exception that aborted the loop, if any. -/
def notify_loop (send : String → Except String Unit) (username : String) :
    List Tweet → List String × Option String
  | [] => ([], none)
  | t :: ts =>
    let message := format_message username t
    match send message with
    | .error e => ([], some e)
    | .ok _ =>
      let r := notify_loop send username ts
      (message :: r.1, r.2)

/-- `ActivityTracker._notify` applied to a fetched page: the source
iterates `reversed(tweets)`. -/
def notify (send : String → Except String Unit) (username : String)
    (tweets : List Tweet) : List String × Option String :=
  notify_loop send username tweets.reverse

/-- Outcome of one `ActivityTracker.check_once`: final in-memory state,
messages sent (across all accounts, in order), the uncaught exception that
aborted the cycle if any, and the snapshot written by `_persist_state`
(`none` when the cycle aborted before reaching it). -/
structure CycleResult where
  state : AState
  sent : List String
  err : Option String
  persisted : Option AState
deriving DecidableEq, Repr

/-- The `for username in self.config.accounts` loop of
`ActivityTracker.check_once` (src/src/x_tracker/tracker.py, lines
158-166), followed by `_persist_state`. `fetch` is the combined
`get_user_id` + `fetch_latest_tweets` oracle: given the account and its
current watermark (passed as `since_id`), it returns the newest-first page
or raises. No exception is caught inside the loop, so an error from any
account's fetch or from any send aborts the whole cycle; `_persist_state`
runs only if every account completed. On a non-empty page the watermark is
updated before notifying. -/
def check_once_loop (fetch : String → Option String → Except String (List Tweet))
    (send : String → Except String Unit) :
    List String → AState → List String → CycleResult
  | [], st, sent => ⟨st, sent, none, some st⟩
  | username :: rest, st, sent =>
    match fetch username (state_get st username) with
    | .error e => ⟨st, sent, some e, none⟩
    | .ok tweets =>
      match tweets with
      | [] => check_once_loop fetch send rest st sent
      | t :: ts =>
        let st' := state_set st username (some t.id)
        let r := notify send username (t :: ts)
        match r.2 with
        | some e => ⟨st', sent ++ r.1, some e, none⟩
        | none => check_once_loop fetch send rest st' (sent ++ r.1)

/-- `ActivityTracker.check_once` starting from a given in-memory state. -/
def check_once (fetch : String → Option String → Except String (List Tweet))
    (send : String → Except String Unit) (accounts : List String)
    (st : AState) : CycleResult :=
  check_once_loop fetch send accounts st []

end XT

namespace Sample

/-- Concrete tweets used in counterexamples and witnesses. Ids follow the
spec's naming in its worked examples (`a`, `b`, `c`, `d`, `e`, `z`). -/
def a : Tweet := ⟨"a", "post a"⟩

def b : Tweet := ⟨"b", "post b"⟩

def c : Tweet := ⟨"c", "post c"⟩

def d : Tweet := ⟨"d", "post d"⟩

def e : Tweet := ⟨"e", "post e"⟩

def z : Tweet := ⟨"z", "post z"⟩

def one : Tweet := ⟨"101", "hello"⟩

/-- A fetch oracle under which account `X` fails (the `RuntimeError`
raised by `_raise_for_status`) while every other account succeeds with a
one-tweet page. -/
def fetch_fail_X : String → Option String → Except String (List Tweet) :=
  fun u _ =>
    if u = "X" then Except.error "X API request failed (500): upstream down"
    else Except.ok [one]

/-- A Telegram send oracle that always succeeds. -/
def send_ok : String → Except String Unit := fun _ => Except.ok ()

/-- A delivery-outcome assignment under which every send attempt raises a
`requests.RequestException` inside `send_to_telegram`. -/
def fail_all : Tweet → XWeb.SendOutcome :=
  fun _ => XWeb.SendOutcome.requestException "network unreachable"

end Sample

namespace XWeb

theorem new_tweets_scan_eq_takeWhile (w : String) (ts : List Tweet) :
    new_tweets_scan w ts = ts.takeWhile (fun t => !(t.id = w)) := by
  induction ts with
  | nil => rfl
  | cons t ts ih =>
    by_cases h : t.id = w <;> simp [new_tweets_scan, List.takeWhile_cons, h, ih]

theorem new_tweets_scan_head_eq (t : Tweet) (ts : List Tweet) :
    new_tweets_scan t.id (t :: ts) = [] := by
  simp [new_tweets_scan]

theorem new_tweets_scan_all (w : String) (ts : List Tweet)
    (h : ∀ t ∈ ts, t.id ≠ w) : new_tweets_scan w ts = ts := by
  induction ts with
  | nil => rfl
  | cons t ts ih =>
    have ht : t.id ≠ w := h t (List.mem_cons_self t ts)
    simp only [new_tweets_scan, if_neg ht]
    exact congrArg (t :: ·) (ih fun x hx => h x (List.mem_cons_of_mem t hx))

theorem new_tweets_scan_boundary (w : String) (b : Tweet) (hb : b.id = w) :
    ∀ pre suf : List Tweet, (∀ t ∈ pre, t.id ≠ w) →
      new_tweets_scan w (pre ++ b :: suf) = pre := by
  intro pre
  induction pre with
  | nil => intro suf _; simp [new_tweets_scan, hb]
  | cons p pre ih =>
    intro suf hpre
    have hp : p.id ≠ w := hpre p (List.mem_cons_self p pre)
    simp only [List.cons_append, new_tweets_scan, if_neg hp]
    exact congrArg (p :: ·)
      (ih suf fun x hx => hpre x (List.mem_cons_of_mem p hx))

theorem mem_new_tweets_scan_append (w : String) (x : Tweet) (hx : x.id = w) :
    ∀ pre suf : List Tweet, ∀ t ∈ new_tweets_scan w (pre ++ x :: suf), t ∈ pre := by
  intro pre
  induction pre with
  | nil => intro suf t ht; simp [new_tweets_scan, hx] at ht
  | cons p pre ih =>
    intro suf t ht
    simp only [List.cons_append, new_tweets_scan] at ht
    by_cases hp : p.id = w
    · simp [hp] at ht
    · rw [if_neg hp] at ht
      rcases List.mem_cons.mp ht with h | h
      · exact h ▸ List.mem_cons_self p pre
      · exact List.mem_cons_of_mem p (ih suf t h)

theorem step_watermark_cons (w : Option String) (t : Tweet) (ts : List Tweet) :
    step_watermark w (t :: ts) = some t.id := by
  cases w <;> rfl

theorem step_watermark_nil (w : Option String) : step_watermark w [] = w := by
  cases w <;> rfl

theorem run_trace_mem (pages : List (List Tweet)) :
    ∀ w0 : Option String, ∀ w ∈ run_trace w0 pages,
      w = w0 ∨ ∃ t ts, (t :: ts) ∈ pages ∧ w = some t.id := by
  induction pages with
  | nil => intro w0 w hw; simp [run_trace] at hw
  | cons p ps ih =>
    intro w0 w hw
    simp only [run_trace, List.mem_cons] at hw
    rcases hw with rfl | hw
    · cases p with
      | nil => exact Or.inl (step_watermark_nil w0)
      | cons t ts =>
        exact Or.inr ⟨t, ts, List.mem_cons_self _ _, step_watermark_cons w0 t ts⟩
    · rcases ih (step_watermark w0 p) w hw with h | ⟨t, ts, hmem, rfl⟩
      · rw [h]
        cases p with
        | nil => exact Or.inl (step_watermark_nil w0)
        | cons t ts =>
          exact Or.inr ⟨t, ts, List.mem_cons_self _ _, step_watermark_cons w0 t ts⟩
      · exact Or.inr ⟨t, ts, List.mem_cons_of_mem p hmem, rfl⟩

theorem main_run_notified_eq (w : String) (tweets : List Tweet)
    (o : Tweet → SendOutcome) (h : tweets ≠ []) :
    (main_run (some w) tweets o).1 = (new_tweets_scan w tweets).reverse := by
  cases tweets with
  | nil => exact absurd rfl h
  | cons t ts => rfl

end XWeb

namespace XT

theorem state_get_cons_self (k : String) (v : Option String) (rest : AState) :
    state_get ((k, v) :: rest) k = v := by
  simp [state_get, List.lookup]

theorem state_get_cons_ne (k a : String) (v : Option String) (rest : AState)
    (h : k ≠ a) : state_get ((k, v) :: rest) a = state_get rest a := by
  have hb : (a == k) = false := beq_eq_false_iff_ne.mpr (Ne.symm h)
  simp [state_get, List.lookup, hb]

theorem state_get_set (st : AState) (u : String) (v : Option String) :
    state_get (state_set st u v) u = v := by
  induction st with
  | nil => simp [state_set, state_get, List.lookup]
  | cons e rest ih =>
    by_cases h : e.1 = u
    · simp only [state_set, if_pos h]
      exact state_get_cons_self u v rest
    · simp only [state_set, if_neg h]
      rw [state_get_cons_ne e.1 u e.2 _ h]
      exact ih

theorem state_set_keys (st : AState) (u : String) (v : Option String)
    (h : u ∈ st.map Prod.fst) :
    (state_set st u v).map Prod.fst = st.map Prod.fst := by
  induction st with
  | nil => simp at h
  | cons e rest ih =>
    by_cases he : e.1 = u
    · simp only [state_set, if_pos he, List.map_cons]
      rw [he]
    · simp only [state_set, if_neg he, List.map_cons]
      simp only [List.map_cons, List.mem_cons] at h
      rcases h with h | h
      · exact absurd h.symm he
      · rw [ih h]

theorem check_once_loop_error_head
    (f : String → Option String → Except String (List Tweet))
    (s : String → Except String Unit) (u : String) (rest : List String)
    (st : AState) (sent : List String) (e : String)
    (hf : f u (state_get st u) = Except.error e) :
    check_once_loop f s (u :: rest) st sent = ⟨st, sent, some e, none⟩ := by
  simp only [check_once_loop, hf]

theorem check_once_loop_persist
    (f : String → Option String → Except String (List Tweet))
    (s : String → Except String Unit) :
    ∀ rem : List String, ∀ st : AState, ∀ sent : List String,
      ((check_once_loop f s rem st sent).err = none →
        (check_once_loop f s rem st sent).persisted
          = some (check_once_loop f s rem st sent).state)
      ∧ ((check_once_loop f s rem st sent).err ≠ none →
        (check_once_loop f s rem st sent).persisted = none) := by
  intro rem
  induction rem with
  | nil => intro st sent; exact ⟨fun _ => rfl, fun h => absurd rfl h⟩
  | cons u rest ih =>
    intro st sent
    cases hf : f u (state_get st u) with
    | error e =>
      have hrw : check_once_loop f s (u :: rest) st sent = ⟨st, sent, some e, none⟩ :=
        check_once_loop_error_head f s u rest st sent e hf
      rw [hrw]
      exact ⟨fun h => Option.noConfusion h, fun _ => rfl⟩
    | ok tweets =>
      cases tweets with
      | nil =>
        simp only [check_once_loop, hf]
        exact ih st sent
      | cons t ts =>
        cases hn : (notify s u (t :: ts)).2 with
        | some e =>
          have hrw : check_once_loop f s (u :: rest) st sent
              = ⟨state_set st u (some t.id),
                  sent ++ (notify s u (t :: ts)).1, some e, none⟩ := by
            simp only [check_once_loop, hf, hn]
          rw [hrw]
          exact ⟨fun h => Option.noConfusion h, fun _ => rfl⟩
        | none =>
          simp only [check_once_loop, hf, hn]
          exact ih _ _

theorem check_once_loop_keys
    (f : String → Option String → Except String (List Tweet))
    (s : String → Except String Unit) :
    ∀ rem : List String, ∀ st : AState, ∀ sent : List String,
      (∀ u ∈ rem, u ∈ st.map Prod.fst) →
      (check_once_loop f s rem st sent).state.map Prod.fst = st.map Prod.fst := by
  intro rem
  induction rem with
  | nil => intro st sent _; rfl
  | cons u rest ih =>
    intro st sent hmem
    have hu : u ∈ st.map Prod.fst := hmem u (List.mem_cons_self u rest)
    cases hf : f u (state_get st u) with
    | error e => simp only [check_once_loop, hf]
    | ok tweets =>
      cases tweets with
      | nil =>
        simp only [check_once_loop, hf]
        exact ih st sent fun v hv => hmem v (List.mem_cons_of_mem u hv)
      | cons t ts =>
        have hkeys := state_set_keys st u (some t.id) hu
        cases hn : (notify s u (t :: ts)).2 with
        | some e => simp only [check_once_loop, hf, hn]; exact hkeys
        | none =>
          simp only [check_once_loop, hf, hn]
          rw [ih (state_set st u (some t.id)) _ fun v hv => by
            rw [hkeys]; exact hmem v (List.mem_cons_of_mem u hv)]
          exact hkeys

theorem check_once_single_state
    (f : String → Option String → Except String (List Tweet))
    (s : String → Except String Unit) (u : String) (st : AState)
    (t : Tweet) (ts : List Tweet)
    (hf : f u (state_get st u) = Except.ok (t :: ts)) :
    (check_once f s [u] st).state = state_set st u (some t.id) := by
  simp only [check_once, check_once_loop, hf]
  cases hn : (notify s u (t :: ts)).2 with
  | some e => rfl
  | none => rfl

theorem notify_loop_ok (s : String → Except String Unit)
    (hs : ∀ m, s m = Except.ok ()) (u : String) :
    ∀ ts : List Tweet, notify_loop s u ts = (ts.map (format_message u), none) := by
  intro ts
  induction ts with
  | nil => rfl
  | cons t ts ih => simp only [notify_loop, hs, ih, List.map_cons]

theorem notify_ok (s : String → Except String Unit)
    (hs : ∀ m, s m = Except.ok ()) (u : String) (ts : List Tweet) :
    notify s u ts = (ts.reverse.map (format_message u), none) := by
  rw [notify, notify_loop_ok s hs u]

theorem map_fst_map_pair (g : String → Option String) (accounts : List String) :
    (accounts.map fun a => (a, g a)).map Prod.fst = accounts := by
  rw [List.map_map]
  exact (List.map_congr_left fun a _ => rfl).trans (List.map_id accounts)

theorem load_state_keys (file : Option AState) (accounts : List String) :
    (load_state file accounts).map Prod.fst = accounts := by
  cases file with
  | none => exact map_fst_map_pair _ accounts
  | some stored => exact map_fst_map_pair _ accounts

theorem lookup_map_pair_not_mem (g : String → Option String) (a : String) :
    ∀ accounts : List String, a ∉ accounts →
      List.lookup a (accounts.map fun x => (x, g x)) = none := by
  intro accounts
  induction accounts with
  | nil => intro _; rfl
  | cons b rest ih =>
    intro h
    have hb : b ≠ a := fun hba => h (hba ▸ List.mem_cons_self b rest)
    have hbeq : (a == b) = false := beq_eq_false_iff_ne.mpr (Ne.symm hb)
    simp only [List.map_cons, List.lookup, hbeq]
    exact ih fun ha => h (List.mem_cons_of_mem b ha)

theorem lookup_load_state_not_mem (file : Option AState) (a : String)
    (accounts : List String) (h : a ∉ accounts) :
    List.lookup a (load_state file accounts) = none := by
  cases file with
  | none => exact lookup_map_pair_not_mem _ a accounts h
  | some stored => exact lookup_map_pair_not_mem _ a accounts h

theorem load_state_roundtrip (st : AState) (h : (st.map Prod.fst).Nodup) :
    load_state (some st) (st.map Prod.fst) = st := by
  induction st with
  | nil => rfl
  | cons e rest ih =>
    obtain ⟨k, v⟩ := e
    simp only [List.map_cons, List.nodup_cons] at h
    obtain ⟨hk, hrest⟩ := h
    show (k, state_get ((k, v) :: rest) k) ::
        (rest.map Prod.fst).map (fun a => (a, state_get ((k, v) :: rest) a))
      = (k, v) :: rest
    rw [state_get_cons_self]
    refine congrArg ((k, v) :: ·) ?_
    have hmaps : (rest.map Prod.fst).map
        (fun a => (a, state_get ((k, v) :: rest) a))
        = (rest.map Prod.fst).map (fun a => (a, state_get rest a)) :=
      List.map_congr_left fun a ha => by
        have hka : k ≠ a := fun hk' => hk (hk' ▸ ha)
        rw [state_get_cons_ne k a v rest hka]
    exact hmaps.trans (ih hrest)

end XT

/-- C1, counterexample: `check_once` catches nothing, so with accounts
`[X, Y]` where `X`'s fetch raises and `Y`'s would succeed, the cycle
aborts at `X`: no notification is sent, nothing is persisted, the
exception propagates — although running the same cycle over `[Y]` alone
sends `Y`'s notification and persists `Y`'s watermark. This refutes the
claimed per-account error isolation. -/
theorem check_once_no_isolation :
    (XT.check_once Sample.fetch_fail_X Sample.send_ok ["X", "Y"]
        [("X", none), ("Y", none)]).sent = []
    ∧ (XT.check_once Sample.fetch_fail_X Sample.send_ok ["X", "Y"]
        [("X", none), ("Y", none)]).persisted = none
    ∧ (XT.check_once Sample.fetch_fail_X Sample.send_ok ["X", "Y"]
        [("X", none), ("Y", none)]).err
        = some "X API request failed (500): upstream down"
    ∧ (XT.check_once Sample.fetch_fail_X Sample.send_ok ["Y"]
        [("X", none), ("Y", none)]).sent ≠ []
    ∧ (XT.check_once Sample.fetch_fail_X Sample.send_ok ["Y"]
        [("X", none), ("Y", none)]).persisted
        = some [("X", none), ("Y", some "101")] := by
  refine ⟨rfl, rfl, rfl, ?_, rfl⟩
  decide

/-- C1, amended: `check_once` catches no per-account errors. A fetch
failure for the account at the head of the remaining list aborts the loop
immediately with that exception, with no further account fetched or
notified and nothing persisted; in general the cycle persists the state
exactly when no account raised, and persists nothing whenever any fetch
or notify raised. -/
theorem check_once_abort_on_failure
    (f : String → Option String → Except String (List Tweet))
    (s : String → Except String Unit) (accounts : List String)
    (st : XT.AState) (sent : List String) :
    (∀ u rest e, f u (XT.state_get st u) = Except.error e →
        XT.check_once_loop f s (u :: rest) st sent = ⟨st, sent, some e, none⟩)
    ∧ ((XT.check_once_loop f s accounts st sent).err = none →
        (XT.check_once_loop f s accounts st sent).persisted
          = some (XT.check_once_loop f s accounts st sent).state)
    ∧ ((XT.check_once_loop f s accounts st sent).err ≠ none →
        (XT.check_once_loop f s accounts st sent).persisted = none) := by
  refine ⟨?_, (XT.check_once_loop_persist f s accounts st sent).1,
    (XT.check_once_loop_persist f s accounts st sent).2⟩
  intro u rest e hf
  exact XT.check_once_loop_error_head f s u rest st sent e hf

/-- C1, amended, witness at a concrete input: accounts `[X, Y]`, `X`'s
fetch raising — the loop aborts at once with the exception, state and
sent list untouched, nothing persisted. -/
theorem check_once_abort_on_failure_witness :
    XT.check_once_loop Sample.fetch_fail_X Sample.send_ok ["X", "Y"]
        [("X", none), ("Y", none)] []
      = ⟨[("X", none), ("Y", none)], [],
          some "X API request failed (500): upstream down", none⟩ :=
  (check_once_abort_on_failure Sample.fetch_fail_X Sample.send_ok ["X", "Y"]
      [("X", none), ("Y", none)] []).1 "X" ["Y"]
    "X API request failed (500): upstream down" rfl

/-- C2, counterexample: `_persist_state` truncates the state file in
place (`open(..., "w")`) before `json.dump` writes it, so with previous
content `\x7b\x7d` and snapshot `acct1 : "100"` a concurrent reader can
observe the truncated empty file, which is neither the old content nor
the full new snapshot — the claimed atomicity fails. -/
theorem persist_not_atomic :
    ¬ (∀ c ∈ XT.persist_trace_contents (some "\x7b\x7d")
          [("acct1", some "100")],
        c = some "\x7b\x7d"
        ∨ c = some (XT.json_of_state [("acct1", some "100")])) := by
  decide

/-- C2, amended: `_persist_state` creates any missing parent directory
and ends with the file holding the full serialized snapshot, but the
write is not atomic: the file is truncated in place, so the empty content
is visible to a concurrent reader between the truncation and the
completed dump. -/
theorem persist_state_amended (old : Option String) (st : XT.AState)
    (dirs : List String) (parent : String) :
    parent ∈ XT.persist_dirs_after dirs parent
    ∧ (XT.persist_trace_contents old st).getLast?
        = some (some (XT.json_of_state st))
    ∧ some "" ∈ XT.persist_trace_contents old st := by
  refine ⟨?_, rfl, by simp [XT.persist_trace_contents]⟩
  by_cases h : parent ∈ dirs <;> simp [XT.persist_dirs_after, h]

/-- C3: scan-until-match. For every newest-first page and watermark id:
if the page splits as `pre ++ boundary :: suf` with the boundary carrying
the watermark id and nothing in `pre` matching it, the collected new
items are exactly `pre` (boundary excluded); if no item matches, the
whole page is new; and concretely, fetched `[e, d, c]` with stored
watermark `z` absent from the page yields all three, oldest-first
`c, d, e`. -/
theorem scan_until_match_spec (w : String) (page : List Tweet) :
    (∀ pre b suf, page = pre ++ b :: suf → b.id = w →
        (∀ t ∈ pre, t.id ≠ w) → XWeb.new_tweets_scan w page = pre)
    ∧ ((∀ t ∈ page, t.id ≠ w) → XWeb.new_tweets_scan w page = page)
    ∧ (XWeb.diff (some "z") [Sample.e, Sample.d, Sample.c]).1
        = [Sample.c, Sample.d, Sample.e] := by
  refine ⟨?_, XWeb.new_tweets_scan_all w page, by decide⟩
  rintro pre b suf rfl hb hpre
  exact XWeb.new_tweets_scan_boundary w b hb pre suf hpre

/-- C3, witness: page `[b, z, a]` with watermark `z` — the scan collects
exactly the part strictly before the boundary. -/
theorem scan_until_match_spec_witness :
    XWeb.new_tweets_scan "z" [Sample.b, Sample.z, Sample.a] = [Sample.b] :=
  (scan_until_match_spec "z" [Sample.b, Sample.z, Sample.a]).1
    [Sample.b] Sample.z [Sample.a] rfl rfl (by decide)

/-- C4: watermark progress. On a non-empty fetched page the watermark
becomes the newest fetched item's id (also when nothing is new — a no-op
set); an empty page leaves it unchanged; across any sequence of cycles
every watermark value is the initial one or the newest item of some
fetched page; when the page's ids are distinct the watermark is never an
id from deeper in the page; and in the `x_tracker` variant a single
account's `check_once` on a non-empty page likewise sets the state entry
to the newest fetched id. -/
theorem watermark_forward_progress (w0 : Option String)
    (pages : List (List Tweet)) :
    (∀ t ts, XWeb.step_watermark w0 (t :: ts) = some t.id)
    ∧ XWeb.step_watermark w0 [] = w0
    ∧ (∀ w ∈ XWeb.run_trace w0 pages,
        w = w0 ∨ ∃ t ts, (t :: ts) ∈ pages ∧ w = some t.id)
    ∧ (∀ t ts, ((t :: ts).map Tweet.id).Nodup →
        ∀ x ∈ ts, XWeb.step_watermark w0 (t :: ts) ≠ some x.id)
    ∧ (∀ (f : String → Option String → Except String (List Tweet))
        (s : String → Except String Unit) (u : String) (st : XT.AState)
        (t : Tweet) (ts : List Tweet),
        f u (XT.state_get st u) = Except.ok (t :: ts) →
        XT.state_get (XT.check_once f s [u] st).state u = some t.id) := by
  refine ⟨XWeb.step_watermark_cons w0, XWeb.step_watermark_nil w0,
    XWeb.run_trace_mem pages w0, ?_, ?_⟩
  · intro t ts hnd x hx heq
    rw [XWeb.step_watermark_cons w0 t ts] at heq
    have hid : t.id = x.id := Option.some.inj heq
    simp only [List.map_cons, List.nodup_cons] at hnd
    exact hnd.1 (hid ▸ List.mem_map_of_mem Tweet.id hx)
  · intro f s u st t ts hf
    rw [XT.check_once_single_state f s u st t ts hf]
    exact XT.state_get_set st u (some t.id)

/-- C4, witness: with stored watermark `z` and fetched page `[b, a]` the
watermark becomes `b` (the newest fetched id) and is not the deeper id
`a`. -/
theorem watermark_forward_progress_witness :
    XWeb.step_watermark (some "z") [Sample.b, Sample.a] = some "b"
    ∧ XWeb.step_watermark (some "z") [Sample.b, Sample.a] ≠ some "a" := by
  have h := watermark_forward_progress (some "z") [[Sample.b, Sample.a]]
  exact ⟨h.1 Sample.b [Sample.a],
    h.2.2.2.1 Sample.b [Sample.a] (by decide) Sample.a (by decide)⟩

/-- C5: first-run behavior for an absent watermark and fetched page
`[c, b, a]`. The `x_web_tracker` variant seeds silently: zero
notifications and watermark set to `c`'s id (variant B). The `x_tracker`
variant notifies all three in order `a, b, c` and sets the watermark to
`c`'s id (variant A). Each implementation thus applies its documented
first-run policy exactly. -/
theorem first_run_policy (a b c : Tweet) (username : String) :
    XWeb.diff none [c, b, a] = ([], some c.id)
    ∧ (XT.check_once (fun _ _ => Except.ok [c, b, a]) Sample.send_ok
          [username] [(username, none)]).sent
        = [XT.format_message username a, XT.format_message username b,
            XT.format_message username c]
    ∧ (XT.check_once (fun _ _ => Except.ok [c, b, a]) Sample.send_ok
          [username] [(username, none)]).state
        = [(username, some c.id)]
    ∧ (XT.check_once (fun _ _ => Except.ok [c, b, a]) Sample.send_ok
          [username] [(username, none)]).persisted
        = some [(username, some c.id)] := by
  have hnotify : XT.notify Sample.send_ok username [c, b, a]
      = ([XT.format_message username a, XT.format_message username b,
          XT.format_message username c], none) := by
    rw [XT.notify_ok Sample.send_ok (fun _ => rfl) username]
    simp
  have hrun : XT.check_once (fun _ _ => Except.ok [c, b, a]) Sample.send_ok
      [username] [(username, none)]
      = ⟨[(username, some c.id)],
          [XT.format_message username a, XT.format_message username b,
            XT.format_message username c], none,
          some [(username, some c.id)]⟩ := by
    simp only [XT.check_once, XT.check_once_loop, hnotify, XT.state_set,
      if_pos rfl, eq_self_iff_true, if_true, List.nil_append]
  exact ⟨rfl, by rw [hrun], by rw [hrun], by rw [hrun]⟩

/-- C6: notification order. For a newest-first page `[c, b, a]` none of
whose items were previously seen: `_notify` in the `x_tracker` variant
hands the adapter exactly the three messages oldest-first `a, b, c`, and
the `x_web_tracker` diff yields the new items in send order `[a, b, c]`.
The list equalities give each item exactly once, in order. -/
theorem notification_order (a b c : Tweet) (username w : String)
    (ha : a.id ≠ w) (hb : b.id ≠ w) (hc : c.id ≠ w) :
    XT.notify Sample.send_ok username [c, b, a]
      = ([XT.format_message username a, XT.format_message username b,
          XT.format_message username c], none)
    ∧ (XWeb.diff (some w) [c, b, a]).1 = [a, b, c] := by
  constructor
  · rw [XT.notify_ok Sample.send_ok (fun _ => rfl) username]
    simp
  · have hall : XWeb.new_tweets_scan w [c, b, a] = [c, b, a] := by
      refine XWeb.new_tweets_scan_all w _ ?_
      intro t ht
      simp only [List.mem_cons, List.not_mem_nil, or_false] at ht
      rcases ht with rfl | rfl | rfl <;> assumption
    simp [XWeb.diff, XWeb.main_run, hall]

/-- C6, witness: the concrete page `[c, b, a]` with watermark `z`. -/
theorem notification_order_witness :
    (XWeb.diff (some "z") [Sample.c, Sample.b, Sample.a]).1
      = [Sample.a, Sample.b, Sample.c] :=
  (notification_order Sample.a Sample.b Sample.c "user" "z"
    (by decide) (by decide) (by decide)).2

/-- C8: round-trip persistence. Loading a saved snapshot whose keys are
exactly the configured accounts (in order, without duplicates — the shape
every snapshot the tracker saves has) reproduces the identical mapping,
stored `null` included. -/
theorem state_roundtrip (st : XT.AState) (h : (st.map Prod.fst).Nodup) :
    XT.load_state (some st) (st.map Prod.fst) = st :=
  XT.load_state_roundtrip st h

/-- C8, witness: the spec's example snapshot `acct1 : "100", acct2 :
null` round-trips exactly. -/
theorem state_roundtrip_witness :
    XT.load_state (some [("acct1", some "100"), ("acct2", none)])
        ["acct1", "acct2"]
      = [("acct1", some "100"), ("acct2", none)] :=
  state_roundtrip [("acct1", some "100"), ("acct2", none)] (by decide)

/-- C9, counterexample: with watermark `z` and page `[b, a, z]`, every
delivery failing, `a` and `b` are handed to the (failing) sender and the
watermark still advances to `b`; but a later run whose page `[a]` no
longer contains the watermark id treats the whole page as new and hands
`a` to the sender again — a failed item IS re-notified on a later run,
refuting the claimed "never re-notified". -/
theorem failed_delivery_renotified :
    (XWeb.main_run (some "z") [Sample.b, Sample.a, Sample.z]
        Sample.fail_all).1 = [Sample.a, Sample.b]
    ∧ Sample.fail_all Sample.a ≠ XWeb.SendOutcome.success
    ∧ (XWeb.main_run (some "z") [Sample.b, Sample.a, Sample.z]
        Sample.fail_all).2.2 = some "b"
    ∧ Sample.a ∈ (XWeb.main_run (some "b") [Sample.a] Sample.fail_all).1 := by
  refine ⟨by decide, by decide, by decide, by decide⟩

/-- C9, amended: `send_to_telegram` swallows every delivery failure —
the notified list and the stored watermark are independent of the
delivery outcomes, and on a non-empty page the watermark unconditionally
advances to the newest fetched id; consequently an item (failed or not)
is not re-notified on a later run whose fetched page still contains an
item carrying the watermark id at or before its position (ids distinct);
only when the watermark id is absent from a later page can a previously
failed item be sent again. -/
theorem send_failures_swallowed (w : Option String) (tweets : List Tweet)
    (o1 o2 : Tweet → XWeb.SendOutcome) :
    (XWeb.main_run w tweets o1).1 = (XWeb.main_run w tweets o2).1
    ∧ (XWeb.main_run w tweets o1).2.2 = (XWeb.main_run w tweets o2).2.2
    ∧ (∀ t ts, tweets = t :: ts → (XWeb.main_run w tweets o1).2.2 = some t.id)
    ∧ (∀ wm x, ∀ pre suf : List Tweet, ∀ t, x.id = wm → t ∈ suf →
        ((pre ++ x :: suf).map Tweet.id).Nodup →
        t ∉ (XWeb.main_run (some wm) (pre ++ x :: suf) o1).1) := by
  refine ⟨?_, ?_, ?_, ?_⟩
  · cases tweets with
    | nil => rfl
    | cons t ts => cases w <;> rfl
  · cases tweets with
    | nil => rfl
    | cons t ts => cases w <;> rfl
  · rintro t ts rfl
    cases w <;> rfl
  · intro wm x pre suf t hx ht hnd hmem
    rw [XWeb.main_run_notified_eq wm (pre ++ x :: suf) o1 (by simp)] at hmem
    rw [List.mem_reverse] at hmem
    have hpre : t ∈ pre := XWeb.mem_new_tweets_scan_append wm x hx pre suf t hmem
    rw [List.map_append] at hnd
    have hdisj := (List.nodup_append.mp hnd).2.2
    exact hdisj (List.mem_map_of_mem Tweet.id hpre)
      (List.mem_map_of_mem Tweet.id (List.mem_cons_of_mem x ht))

/-- C9, amended, witness: with watermark `z` and a later page
`[b, z, a]` that still contains the boundary `z` before `a`, the item `a`
is not re-notified even though every delivery fails. -/
theorem send_failures_swallowed_witness :
    Sample.a ∉ (XWeb.main_run (some "z") [Sample.b, Sample.z, Sample.a]
        Sample.fail_all).1 :=
  (send_failures_swallowed (some "z") [Sample.b, Sample.z, Sample.a]
      Sample.fail_all Sample.fail_all).2.2.2 "z" Sample.z
    [Sample.b] [Sample.a] Sample.a rfl (by decide) (by decide)

/-- C10: the in-memory state's key list equals the configured accounts
after `_load_state` (whether or not a durable file exists) and after
`check_once`; an account absent from the configuration has no entry in
the loaded mapping, and any snapshot `check_once` persists again has
exactly the configured accounts as keys — so a durable entry for an
unconfigured account is dropped on load and gone from the next save. -/
theorem state_keys_match_config
    (f : String → Option String → Except String (List Tweet))
    (s : String → Except String Unit) (accounts : List String)
    (file : Option XT.AState) :
    (XT.load_state file accounts).map Prod.fst = accounts
    ∧ (∀ a, a ∉ accounts →
        List.lookup a (XT.load_state file accounts) = none)
    ∧ (XT.check_once f s accounts
        (XT.load_state file accounts)).state.map Prod.fst = accounts
    ∧ (∀ p, (XT.check_once f s accounts
          (XT.load_state file accounts)).persisted = some p →
        p.map Prod.fst = accounts) := by
  have hkeys := XT.load_state_keys file accounts
  have hloop : (XT.check_once f s accounts
      (XT.load_state file accounts)).state.map Prod.fst = accounts := by
    rw [XT.check_once, XT.check_once_loop_keys f s accounts _ []
      fun u hu => by rw [hkeys]; exact hu]
    exact hkeys
  refine ⟨hkeys, fun a ha => XT.lookup_load_state_not_mem file a accounts ha,
    hloop, ?_⟩
  intro p hp
  by_cases herr : (XT.check_once f s accounts
      (XT.load_state file accounts)).err = none
  · have := (XT.check_once_loop_persist f s accounts
        (XT.load_state file accounts) []).1 herr
    rw [XT.check_once] at hp
    rw [this] at hp
    have hps : p = (XT.check_once_loop f s accounts
        (XT.load_state file accounts) []).state := (Option.some.inj hp).symm
    rw [hps]
    exact hloop
  · have := (XT.check_once_loop_persist f s accounts
        (XT.load_state file accounts) []).2 herr
    rw [XT.check_once] at hp
    rw [this] at hp
    exact absurd hp (by simp)

/-- C10, witness: durable file with an entry for unconfigured account `X`
and configuration `[Y]` — the loaded mapping has no entry for `X`. -/
theorem state_keys_match_config_witness :
    List.lookup "X" (XT.load_state (some [("X", some "9")]) ["Y"]) = none :=
  (state_keys_match_config Sample.fetch_fail_X Sample.send_ok ["Y"]
      (some [("X", some "9")])).2.1 "X" (by decide)

/-- C7: running `diff` a second time on the same fetched page with the
watermark produced by the first call yields zero new items, for every page
and every initial watermark. -/
theorem diff_idempotent (w : Option String) (tweets : List Tweet) :
    (XWeb.diff (XWeb.diff w tweets).2 tweets).1 = [] := by
  cases tweets with
  | nil => cases w <;> rfl
  | cons t ts =>
    cases w with
    | none =>
      simp [XWeb.diff, XWeb.main_run, XWeb.new_tweets_scan_head_eq]
    | some w0 =>
      simp [XWeb.diff, XWeb.main_run, XWeb.new_tweets_scan_head_eq]
